import Mathlib

/-!
Shallow embedding of the `ynca` YNCA-protocol client core: the subunit
discovery state machine of `ynca/receiver.py`, the zone subunit of
`ynca/zone.py`, the function-descriptor declarations of
`ynca/function_mixins.py` and `ynca/subunits/zone.py`, together with the
parts of the protocol session / descriptor engine that those modules use.

Conventions: Python floats are embedded as `ℚ`; Python dicts keyed by
strings are association lists updated in insertion order; a raised
exception is an `Except.error`; a command transmitted through the
connection is a `Command` value in the returned list.
-/

set_option autoImplicit false

namespace Ynca

/-! ## Protocol data model -/

/-- Status classification of a received protocol line
(`YncaProtocolStatus` of `ynca/connection.py`). -/
inductive YncaProtocolStatus where
  | OK
  | UNDEFINED
  | RESTRICTED
  | ERROR
  | OTHER
  deriving DecidableEq, Repr

/-- One parsed inbound protocol line as delivered to message callbacks:
`(status, subunit, function, value)`. -/
structure ProtocolEvent where
  status : YncaProtocolStatus
  subunit : String
  function : String
  value : String
  deriving DecidableEq, Repr

/-- One outbound command. `value = none` is a GET (`@SUB:FUNC=?`),
`value = some v` is a PUT (`@SUB:FUNC=v`). -/
structure Command where
  subunit_id : String
  function : String
  value : Option String
  deriving DecidableEq, Repr

/-- The exceptions raised by the embedded code
(`ynca/errors.py` plus Python built-in `ValueError`). -/
inductive YncaError where
  | YncaInitializationFailedException (msg : String)
  | UnsupportedOperationError (msg : String)
  | ConversionError (msg : String)
  | ValueError (msg : String)
  deriving DecidableEq, Repr

/-- Commands actually transmitted by a call that may raise: a raised
exception transmits nothing. -/
def commandsOf : Except YncaError (List Command) → List Command
  | .ok cs => cs
  | .error _ => []

/-- Modelled from the spec: the fixed enumerated catalog of subunit ids
(`Subunit` of `ynca/constants.py`, not under `src/`): the system subunit,
the four zones used by `ynca/zone.py`, and the media-source subunits
listed in `SUBUNIT_INPUT_MAPPINGS` of `ynca/receiver.py`. -/
def subunitCatalog : List String :=
  ["SYS", "MAIN", "ZONE2", "ZONE3", "ZONE4",
   "TUN", "SIRIUS", "IPOD", "BT", "RHAP", "SIRIUSIR",
   "PANDORA", "NAPSTER", "PC", "NETRADIO", "IPODUSB", "UAW"]

/-- Modelled from the spec: the zone subset of the catalog (`ZONES` of
`ynca/constants.py`, not under `src/`); `ynca/zone.py` declares exactly
the zone classes `Main`, `Zone2`, `Zone3`, `Zone4`. -/
def ZONES : List String := ["MAIN", "ZONE2", "ZONE3", "ZONE4"]

/-- Python-dict style association-list update: overwrite in place if the
key is present, append otherwise (insertion order preserved). -/
def assocSet {β : Type} (m : List (String × β)) (k : String) (v : β) :
    List (String × β) :=
  match m with
  | [] => [(k, v)]
  | (k', v') :: rest =>
      if k' = k then (k, v) :: rest else (k', v') :: assocSet rest k v

/-- Python-dict lookup on the association-list embedding. -/
def assocGet {β : Type} (m : List (String × β)) (s : String) : Option β :=
  match m with
  | [] => none
  | (k', v') :: rest => if k' = s then some v' else assocGet rest s

/-! ## Discovery state machine (`ynca/receiver.py`) -/

/-- The transient discovery state owned by `Receiver`:
`_available_subunits` and the `_initialized_event` flag. -/
structure ReceiverDiscoveryState where
  available_subunits : List (String × Bool)
  initialized_event : Bool
  deriving DecidableEq, Repr

/-- `Receiver._protocol_message_received`: an `AVAIL` event records its
subunit as available exactly when the status is `OK`; a `SYS VERSION`
event sets the initialized event. -/
def protocolMessageReceived (st : ReceiverDiscoveryState)
    (e : ProtocolEvent) : ReceiverDiscoveryState :=
  let st1 :=
    if e.function = "AVAIL" then
      { st with available_subunits :=
          (assocSet st.available_subunits e.subunit
            (decide (e.status = YncaProtocolStatus.OK))) }
    else st
  if e.subunit = "SYS" ∧ e.function = "VERSION" then
    { st1 with initialized_event := true }
  else st1

/-- Number of commands the scan sends between reading
`num_commands_sent` and waiting: one `AVAIL` GET per catalog entry plus
the final `SYS VERSION` GET (`Receiver._detect_available_subunits`). -/
def discoveryCommandsSent : ℕ := subunitCatalog.length + 1

/-- The wait timeout of `Receiver._detect_available_subunits`, in
seconds: `(num_commands_sent - num_commands_sent_start) * 0.120`. -/
def discoveryTimeoutSeconds : ℚ := (discoveryCommandsSent : ℚ) * (120 / 1000)

/-- `Receiver._detect_available_subunits`, given the events the
connection delivered while discovery waited: fold them through the
callback; if the initialized event was never set the wait times out and
`YncaInitializationFailedException` is raised. -/
def detectAvailableSubunits (delivered : List ProtocolEvent) :
    Except YncaError ReceiverDiscoveryState :=
  let final := delivered.foldl protocolMessageReceived ⟨[], false⟩
  if final.initialized_event then .ok final
  else .error (.YncaInitializationFailedException
    "Subunit availability check failed")

/-- Timed wrapper around `detectAvailableSubunits`: an event timestamped
after `discoveryTimeoutSeconds` arrives only after the wait has already
given up, so only events within the timeout are delivered to the wait. -/
def detectAvailableSubunitsTimed (events : List (ℚ × ProtocolEvent)) :
    Except YncaError ReceiverDiscoveryState :=
  detectAvailableSubunits
    ((events.filter (fun te => te.1 ≤ discoveryTimeoutSeconds)).map Prod.snd)

/-- An `AVAIL` reply for one probed subunit id. -/
def availEvent (p : String × YncaProtocolStatus) (v : String) : ProtocolEvent :=
  ⟨p.2, p.1, "AVAIL", v⟩

/-- The `SYS VERSION` end-of-scan marker reply. -/
def sysVersionEvent (v : String) : ProtocolEvent :=
  ⟨YncaProtocolStatus.OK, "SYS", "VERSION", v⟩

/-- Whether an event releases the discovery wait. -/
def releasesWait (e : ProtocolEvent) : Bool :=
  decide (e.subunit = "SYS") && decide (e.function = "VERSION")

/-- The pure effect of a list of `AVAIL` replies on the
`_available_subunits` dict. -/
def recordAvails (m : List (String × Bool))
    (avails : List (String × YncaProtocolStatus)) : List (String × Bool) :=
  avails.foldl
    (fun m p => assocSet m p.1 (decide (p.2 = YncaProtocolStatus.OK))) m

/-! ## Subunit construction (`Receiver._initialize_available_subunits`) -/

/-- A constructed subunit object, reduced to what the claims need: its
id and whether `initialize()` has been called on it. -/
structure SubunitInstance where
  id : String
  initialize_called : Bool
  deriving DecidableEq, Repr

/-- `subunit.initialize()`. -/
def SubunitInstance.initializeCall (s : SubunitInstance) : SubunitInstance :=
  { s with initialize_called := true }

/-- `System(connection)`: the system subunit, id `SYS`. -/
def SystemInstance : SubunitInstance := ⟨"SYS", false⟩

/-- `Zone(subunit_id, connection)`. -/
def ZoneInstance (subunit_id : String) : SubunitInstance := ⟨subunit_id, false⟩

/-- `Receiver._initialize_available_subunits`: the `subunits` dict after
initialization. The system subunit is always constructed and
initialized; then, for each entry of `_available_subunits`, unavailable
ids are skipped, a `Zone` is constructed only for ids in `ZONES`, and a
constructed subunit is initialized and stored under its id. -/
def initializeAvailableSubunits (available : List (String × Bool)) :
    List (String × SubunitInstance) :=
  let system := SystemInstance.initializeCall
  (system.id, system) ::
    available.filterMap (fun p =>
      if p.2 = true then
        if p.1 ∈ ZONES then
          let z := (ZoneInstance p.1).initializeCall
          some (z.id, z)
        else none
      else none)

/-! ## Typed protocol values (`ynca/constants.py`, `ynca/function_mixins.py`) -/

/-- Modelled from the spec: the `Repeat` enum of `ynca/constants.py`
(not under `src/`); protocol values `Off`, `Single`, `All` as exercised
by `src/tests/test_mediaplayback_subunits.py`. -/
inductive Repeat where
  | OFF
  | SINGLE
  | ALL
  deriving DecidableEq, Repr

def Repeat.toProtocol : Repeat → String
  | .OFF => "Off"
  | .SINGLE => "Single"
  | .ALL => "All"

def Repeat.fromProtocol (s : String) : Option Repeat :=
  if s = "Off" then some .OFF
  else if s = "Single" then some .SINGLE
  else if s = "All" then some .ALL
  else none

/-- The `Shuffle` enum of `ynca/function_mixins.py`: `On`, `Off`. -/
inductive Shuffle where
  | ON
  | OFF
  deriving DecidableEq, Repr

def Shuffle.toProtocol : Shuffle → String
  | .ON => "On"
  | .OFF => "Off"

def Shuffle.fromProtocol (s : String) : Option Shuffle :=
  if s = "On" then some .ON
  else if s = "Off" then some .OFF
  else none

/-- Modelled from the spec: the `Playback` enum of `ynca/constants.py`
(not under `src/`); the test exercises the `Play` value. -/
inductive Playback where
  | PLAY
  | PAUSE
  | STOP
  | SKIP_FWD
  | SKIP_REV
  deriving DecidableEq, Repr

def Playback.toProtocol : Playback → String
  | .PLAY => "Play"
  | .PAUSE => "Pause"
  | .STOP => "Stop"
  | .SKIP_FWD => "Skip Fwd"
  | .SKIP_REV => "Skip Rev"

/-- Modelled from the spec: the `PlaybackInfo` enum of
`ynca/constants.py` (not under `src/`); the test maps `Pause` to
`PlaybackInfo.PAUSE`. -/
inductive PlaybackInfo where
  | PLAY
  | PAUSE
  | STOP
  deriving DecidableEq, Repr

def PlaybackInfo.toProtocol : PlaybackInfo → String
  | .PLAY => "Play"
  | .PAUSE => "Pause"
  | .STOP => "Stop"

def PlaybackInfo.fromProtocol (s : String) : Option PlaybackInfo :=
  if s = "Play" then some .PLAY
  else if s = "Pause" then some .PAUSE
  else if s = "Stop" then some .STOP
  else none

/-! ## Function descriptors (`ynca/function_mixins.py`) -/

/-- The declaration-time metadata of a `YncaFunction` descriptor:
function name, GET/PUT command capability and the optional
initialization-group function name. -/
structure YncaFunctionDesc where
  function_name : String
  supports_get : Bool
  supports_put : Bool
  initialize_function_name : Option String
  deriving DecidableEq, Repr

/-- `PlaybackInfoFunctionMixin.playbackinfo`:
`YncaFunctionEnum("PLAYBACKINFO", PlaybackInfo, command_type=CommandType.GET)`. -/
def playbackinfoFunction : YncaFunctionDesc := ⟨"PLAYBACKINFO", true, false, none⟩

/-- `ArtistFunctionMixin.artist`: GET-only, init group `METAINFO`. -/
def artistFunction : YncaFunctionDesc := ⟨"ARTIST", true, false, some "METAINFO"⟩

/-- `AlbumFunctionMixin.album`: GET-only, init group `METAINFO`. -/
def albumFunction : YncaFunctionDesc := ⟨"ALBUM", true, false, some "METAINFO"⟩

/-- `SongFunctionMixin.song`: GET-only, init group `METAINFO`. -/
def songFunction : YncaFunctionDesc := ⟨"SONG", true, false, some "METAINFO"⟩

/-- `StationFunctionMixin.station`: GET-only. -/
def stationFunction : YncaFunctionDesc := ⟨"STATION", true, false, none⟩

/-- `RepeatFunctionMixin.repeat`: default capability, GET and PUT. -/
def repeatFunction : YncaFunctionDesc := ⟨"REPEAT", true, true, none⟩

/-- `ShuffleFunctionMixin.shuffle`: default capability, GET and PUT. -/
def shuffleFunction : YncaFunctionDesc := ⟨"SHUFFLE", true, true, none⟩

/-- Modelled from the spec: the set accessor of a `YncaFunction`
descriptor (`ynca/subunit.py`, not under `src/`): converts the typed
value and issues one PUT command through the owning subunit's session;
a set on a descriptor without PUT capability raises
`UnsupportedOperationError` and sends nothing. -/
def descriptorPut (d : YncaFunctionDesc) (subunit_id : String)
    (protocol_value : String) : Except YncaError (List Command) :=
  if d.supports_put then
    .ok [⟨subunit_id, d.function_name, some protocol_value⟩]
  else .error (.UnsupportedOperationError d.function_name)

/-! ## Media-playback subunits (`ynca/mediaplayback_subunits.py`) -/

/-- Per-instance cached state of a media-playback subunit: one slot per
function descriptor declared by its mixins, `none` until a value is
received. -/
structure MediaPlaybackState where
  id : String
  album : Option String
  artist : Option String
  song : Option String
  playbackinfo : Option PlaybackInfo
  repeat_ : Option Repeat
  shuffle : Option Shuffle
  avail : Option String
  deriving DecidableEq, Repr

/-- A freshly constructed media-playback subunit: no value cached. -/
def MediaPlaybackState.new (subunit_id : String) : MediaPlaybackState :=
  ⟨subunit_id, none, none, none, none, none, none, none⟩

/-- Modelled from the spec: the descriptor event dispatch of
`SubunitBase` (`ynca/subunit.py` and `ynca/mediaplayback_subunits.py`,
not under `src/`): an event for this subunit id whose status is `OK` is
routed to the descriptor matching its function name, decoded through
its converter and stored; a value the enum converter rejects stores
nothing; events whose status is not `OK` never store. -/
def mediaPlaybackMessageReceived (st : MediaPlaybackState)
    (e : ProtocolEvent) : MediaPlaybackState :=
  if e.subunit = st.id ∧ e.status = YncaProtocolStatus.OK then
    if e.function = "ALBUM" then { st with album := some e.value }
    else if e.function = "ARTIST" then { st with artist := some e.value }
    else if e.function = "SONG" then { st with song := some e.value }
    else if e.function = "AVAIL" then { st with avail := some e.value }
    else if e.function = "PLAYBACKINFO" then
      match PlaybackInfo.fromProtocol e.value with
      | some p => { st with playbackinfo := some p }
      | none => st
    else if e.function = "REPEAT" then
      match Repeat.fromProtocol e.value with
      | some r => { st with repeat_ := some r }
      | none => st
    else if e.function = "SHUFFLE" then
      match Shuffle.fromProtocol e.value with
      | some sh => { st with shuffle := some sh }
      | none => st
    else st
  else st

/-- `dmps.repeat = value`: the `REPEAT` descriptor's set accessor. -/
def mediaPlaybackSetRepeat (st : MediaPlaybackState) (r : Repeat) :
    Except YncaError (List Command) :=
  descriptorPut repeatFunction st.id r.toProtocol

/-- `dmps.shuffle = value`: the `SHUFFLE` descriptor's set accessor. -/
def mediaPlaybackSetShuffle (st : MediaPlaybackState) (sh : Shuffle) :
    Except YncaError (List Command) :=
  descriptorPut shuffleFunction st.id sh.toProtocol

/-- `PlaybackFunctionMixin.playback` (`ynca/function_mixins.py`):
`self._put("PLAYBACK", parameter)`. -/
def playbackCall (st : MediaPlaybackState) (parameter : Playback) :
    List Command :=
  [⟨st.id, "PLAYBACK", some parameter.toProtocol⟩]

/-- The replies delivered in the `test_initialize` scenario of
`src/tests/test_mediaplayback_subunits.py` (all with `OK` status). -/
def mediaPlaybackScenarioEvents (subunit : String) : List ProtocolEvent :=
  [⟨YncaProtocolStatus.OK, subunit, "ALBUM", "Album"⟩,
   ⟨YncaProtocolStatus.OK, subunit, "ARTIST", "Artist"⟩,
   ⟨YncaProtocolStatus.OK, subunit, "SONG", "Song"⟩,
   ⟨YncaProtocolStatus.OK, subunit, "AVAIL", "Ready"⟩,
   ⟨YncaProtocolStatus.OK, subunit, "PLAYBACKINFO", "Pause"⟩,
   ⟨YncaProtocolStatus.OK, subunit, "REPEAT", "Single"⟩,
   ⟨YncaProtocolStatus.OK, subunit, "SHUFFLE", "On"⟩]

/-- The state of the `SUBUNIT` media-playback subunit after dispatching
the scenario events. -/
def mediaPlaybackScenarioState : MediaPlaybackState :=
  (mediaPlaybackScenarioEvents "SUBUNIT").foldl
    mediaPlaybackMessageReceived (MediaPlaybackState.new "SUBUNIT")

/-! ## Float rendering (`ynca/helpers.py`) -/

/-- The input rounded to the nearest multiple of `stepsize`. -/
def steppedValue (value stepsize : ℚ) : ℚ :=
  round (value / stepsize) * stepsize

/-- Minimal-precision decimal rendering: a whole value renders as a
plain integer without a decimal point; otherwise the integer part is
followed by `decimals` fractional digits. -/
def renderMinimal (decimals : ℕ) (q : ℚ) : String :=
  if q.den = 1 then toString q.num
  else
    (if q < 0 then "-" else "") ++ toString (q.num.natAbs / q.den) ++ "." ++
      toString (q.num.natAbs * 10 ^ decimals / q.den % 10 ^ decimals)

/-- Modelled from the spec: `number_to_string_with_stepsize` of
`ynca/helpers.py` (not under `src/`): rounds to the nearest multiple of
the step size and renders with minimal precision (whole values without
a decimal point, others with `decimals` fractional digits). -/
def number_to_string_with_stepsize (value : ℚ) (decimals : ℕ)
    (stepsize : ℚ) : String :=
  renderMinimal decimals (steppedValue value stepsize)

/-- Decimal digits to the natural number they denote. -/
def digitsToNat (cs : List Char) : ℕ :=
  cs.foldl (fun n c => 10 * n + (c.toNat - '0'.toNat)) 0

/-- Python `float(value)` on the decimal strings the device sends
(optional sign, integer digits, optional fractional digits). -/
def parseDecimal (s : String) : Option ℚ :=
  let core : List Char → Option ℚ := fun cs =>
    let intPart := cs.takeWhile Char.isDigit
    let rest := cs.drop intPart.length
    if intPart = [] then none
    else match rest with
      | [] => some (digitsToNat intPart : ℚ)
      | '.' :: frac =>
          if frac ≠ [] ∧ frac.all Char.isDigit then
            some ((digitsToNat intPart : ℚ) +
              (digitsToNat frac : ℚ) / ((10 : ℚ) ^ frac.length))
          else none
      | _ => none
  match s.data with
  | '-' :: rest => (core rest).map (fun q => -q)
  | cs => core cs

/-! ## The `Zone` subunit (`ynca/zone.py`) -/

/-- Per-instance state of `Zone`: the fields set by
`Zone._reset_internal_state`. -/
structure ZoneState where
  id : String
  max_volume : ℚ
  volume : Option ℚ
  scenes : List (String × String)
  attr_inp : Option String
  attr_pwr : Option String
  attr_mute : Option String
  attr_soundprg : Option String
  attr_straight : Option String
  attr_zonename : Option String
  deriving DecidableEq, Repr

/-- `Zone._reset_internal_state`: max volume defaults to `16.5`, no
volume received, no scenes, all attributes unset. -/
def zoneResetInternalState (st : ZoneState) : ZoneState :=
  { st with
    max_volume := 33 / 2
    volume := none
    scenes := []
    attr_inp := none
    attr_pwr := none
    attr_mute := none
    attr_soundprg := none
    attr_straight := none
    attr_zonename := none }

/-- `Zone(subunit_id, connection)`: construction resets internal
state. -/
def ZoneState.new (subunit_id : String) : ZoneState :=
  zoneResetInternalState ⟨subunit_id, 0, none, [], none, none, none, none,
    none, none⟩

/-- `Zone.min_volume`: fixed `-80.5`. -/
def zone_min_volume : ℚ := -(161 / 2)

/-- `Zone._handle_vol`. -/
def zone_handle_vol (st : ZoneState) (v : ℚ) : ZoneState :=
  { st with volume := some v }

/-- `Zone._handle_maxvol`. -/
def zone_handle_maxvol (st : ZoneState) (v : ℚ) : ZoneState :=
  { st with max_volume := v }

/-- `re.match(r"SCENE(\d+)NAME", function_)` on the characters of the
function name: anchored at the start (but not at the end, as `re.match`
is), `SCENE`, then a non-empty maximal run of digits, then `NAME`;
returns the captured digit run. -/
def sceneMatchChars (cs : List Char) : Option (List Char) :=
  if "SCENE".data.isPrefixOf cs then
    if (cs.drop 5).takeWhile Char.isDigit ≠ [] ∧
        "NAME".data.isPrefixOf ((cs.drop 5).dropWhile Char.isDigit) then
      some ((cs.drop 5).takeWhile Char.isDigit)
    else none
  else none

/-- `Zone._subunit_message_received_without_handler`: the fallback
handler offered events with no matching handler. A `SCENE<digits>NAME`
function stores the value in the scenes dict under the digit-string key
and reports the event handled; anything else declines. -/
def subunitMessageReceivedWithoutHandler (st : ZoneState)
    (status : YncaProtocolStatus) (function_ : String) (value : String) :
    Bool × ZoneState :=
  match sceneMatchChars function_.data with
  | some digits =>
      (true, { st with scenes := assocSet st.scenes (String.mk digits) value })
  | none => (false, st)

/-- The function names `Zone` handles through `_handle_*` methods or
`_attr_*` attributes (so they never reach the fallback handler). -/
def zoneKnownFunctions : List String :=
  ["VOL", "MAXVOL", "INP", "PWR", "MUTE", "SOUNDPRG", "STRAIGHT", "ZONENAME"]

/-- Modelled from the spec: the event dispatch of `SubunitBase`
(`ynca/subunit.py`, not under `src/`) specialized to `Zone`: an `OK`
event for this subunit id is routed to the matching `_handle_*` method
or `_attr_*` attribute; with no match it is offered to
`_subunit_message_received_without_handler`; if that declines the event
is dropped without error. Events whose status is not `OK` never store. -/
def zoneMessageReceived (st : ZoneState) (e : ProtocolEvent) : ZoneState :=
  if e.subunit = st.id ∧ e.status = YncaProtocolStatus.OK then
    if e.function = "VOL" then
      match parseDecimal e.value with
      | some v => zone_handle_vol st v
      | none => st
    else if e.function = "MAXVOL" then
      match parseDecimal e.value with
      | some v => zone_handle_maxvol st v
      | none => st
    else if e.function = "INP" then { st with attr_inp := some e.value }
    else if e.function = "PWR" then { st with attr_pwr := some e.value }
    else if e.function = "MUTE" then { st with attr_mute := some e.value }
    else if e.function = "SOUNDPRG" then
      { st with attr_soundprg := some e.value }
    else if e.function = "STRAIGHT" then
      { st with attr_straight := some e.value }
    else if e.function = "ZONENAME" then
      { st with attr_zonename := some e.value }
    else (subunitMessageReceivedWithoutHandler st e.status e.function e.value).2
  else st

/-- The `Zone.volume` setter: in-range values send one PUT with the
value rounded to the `0.5` grid (`number_to_string_with_stepsize(value,
1, 0.5)`); out-of-range values raise `ValueError` and send nothing. The
returned state is the (unchanged) zone state: the setter never writes
`_volume` itself. -/
def zoneVolumeSet (st : ZoneState) (value : ℚ) :
    ZoneState × Except YncaError (List Command) :=
  if zone_min_volume ≤ value ∧ value ≤ st.max_volume then
    (st, .ok [⟨st.id, "VOL",
      some (number_to_string_with_stepsize value 1 (1 / 2))⟩])
  else
    (st, .error (.ValueError
      "Volume out of range, must be between min_volume and max_volume"))

/-- `Zone.volume_up`: step sizes 1, 2 and 5 send `Up {step_size} dB`,
every other step size sends plain `Up`. -/
def zoneVolumeUp (st : ZoneState) (step_size : ℚ) : List Command :=
  [⟨st.id, "VOL",
    some (if step_size = 1 ∨ step_size = 2 ∨ step_size = 5 then
      "Up " ++ toString step_size.num ++ " dB"
    else "Up")⟩]

/-- `Zone.volume_down`: symmetric to `volume_up` with `Down`. -/
def zoneVolumeDown (st : ZoneState) (step_size : ℚ) : List Command :=
  [⟨st.id, "VOL",
    some (if step_size = 1 ∨ step_size = 2 ∨ step_size = 5 then
      "Down " ++ toString step_size.num ++ " dB"
    else "Down")⟩]

/-! # Theorems -/

/-! ## Association-list lemmas -/

theorem assocGet_assocSet {β : Type} (m : List (String × β)) (k s : String)
    (v : β) :
    assocGet (assocSet m k v) s = if k = s then some v else assocGet m s := by
  induction m with
  | nil => simp [assocSet, assocGet]
  | cons p rest ih =>
      obtain ⟨k', v'⟩ := p
      by_cases hk : k' = k
      · subst hk
        by_cases hs : k' = s <;> simp [assocSet, assocGet, hs]
      · by_cases hs : k' = s
        · subst hs
          have hks : ¬ k = k' := fun h => hk h.symm
          simp [assocSet, hk, assocGet, hks]
        · simp [assocSet, hk, assocGet, hs, ih]

theorem assocGet_eq_none_iff {β : Type} (m : List (String × β)) (s : String) :
    assocGet m s = none ↔ s ∉ m.map Prod.fst := by
  induction m with
  | nil => simp [assocGet]
  | cons p rest ih =>
      by_cases h : p.1 = s
      · simp [assocGet, h]
      · rw [assocGet, if_neg h, ih]
        simp only [List.map_cons, List.mem_cons, not_or]
        exact ⟨fun hn => ⟨fun hh => h hh.symm, hn⟩, fun hn => hn.2⟩

theorem assocGet_mem {β : Type} (m : List (String × β)) (s : String) (v : β)
    (h : assocGet m s = some v) : (s, v) ∈ m := by
  induction m with
  | nil => simp [assocGet] at h
  | cons p rest ih =>
      by_cases hk : p.1 = s
      · rw [assocGet, if_pos hk] at h
        cases h
        subst hk
        exact List.mem_cons_self _ _
      · rw [assocGet, if_neg hk] at h
        exact List.mem_cons_of_mem _ (ih h)

/-! ## Discovery lemmas -/

theorem initialized_event_step (st : ReceiverDiscoveryState)
    (e : ProtocolEvent) :
    (protocolMessageReceived st e).initialized_event =
      (st.initialized_event || releasesWait e) := by
  by_cases h : e.subunit = "SYS" ∧ e.function = "VERSION"
  · have hb : releasesWait e = true := by simp [releasesWait, h.1, h.2]
    rw [hb]
    unfold protocolMessageReceived
    by_cases ha : e.function = "AVAIL"
    · exact absurd h.2 (by rw [ha]; decide)
    · simp [ha, h]
  · have hb : releasesWait e = false := by
      rcases not_and_or.mp h with h1 | h1 <;> simp [releasesWait, h1]
    rw [hb]
    unfold protocolMessageReceived
    by_cases ha : e.function = "AVAIL" <;> simp [ha, h]

theorem initialized_event_foldl (es : List ProtocolEvent)
    (st : ReceiverDiscoveryState) :
    (es.foldl protocolMessageReceived st).initialized_event =
      (st.initialized_event || es.any releasesWait) := by
  induction es generalizing st with
  | nil => simp
  | cons e rest ih =>
      simp only [List.foldl_cons, List.any_cons]
      rw [ih, initialized_event_step, Bool.or_assoc]

theorem available_subunits_step (st : ReceiverDiscoveryState)
    (e : ProtocolEvent) :
    (protocolMessageReceived st e).available_subunits =
      (if e.function = "AVAIL" then
        assocSet st.available_subunits e.subunit
          (decide (e.status = YncaProtocolStatus.OK))
      else st.available_subunits) := by
  unfold protocolMessageReceived
  by_cases h : e.subunit = "SYS" ∧ e.function = "VERSION" <;>
    by_cases ha : e.function = "AVAIL" <;> simp [h, ha]

theorem assocGet_recordAvails_notMem (avails : List (String × YncaProtocolStatus))
    (m : List (String × Bool)) (s : String)
    (h : s ∉ avails.map Prod.fst) :
    assocGet (recordAvails m avails) s = assocGet m s := by
  induction avails generalizing m with
  | nil => rfl
  | cons p rest ih =>
      simp only [List.map_cons, List.mem_cons] at h
      push_neg at h
      obtain ⟨h1, h2⟩ := h
      show assocGet (recordAvails (assocSet m p.1 _) rest) s = assocGet m s
      rw [ih _ h2, assocGet_assocSet]
      exact if_neg (fun hh => h1 hh.symm)

theorem assocGet_recordAvails_mem (avails : List (String × YncaProtocolStatus))
    (m : List (String × Bool)) (s : String) (t : YncaProtocolStatus)
    (hnd : (avails.map Prod.fst).Nodup) (hmem : (s, t) ∈ avails) :
    assocGet (recordAvails m avails) s =
      some (decide (t = YncaProtocolStatus.OK)) := by
  induction avails generalizing m with
  | nil => cases hmem
  | cons p rest ih =>
      simp only [List.map_cons, List.nodup_cons] at hnd
      obtain ⟨hp, hrest⟩ := hnd
      rcases List.mem_cons.mp hmem with heq | hmem'
      · subst heq
        show assocGet (recordAvails (assocSet m s _) rest) s = _
        rw [assocGet_recordAvails_notMem rest _ s hp, assocGet_assocSet]
        simp
      · show assocGet (recordAvails (assocSet m p.1 _) rest) s = _
        exact ih _ hrest hmem'

theorem available_subunits_foldl_avails
    (avails : List (String × YncaProtocolStatus)) (av : String)
    (st : ReceiverDiscoveryState) :
    ((avails.map (fun p => availEvent p av)).foldl protocolMessageReceived
        st).available_subunits =
      recordAvails st.available_subunits avails := by
  induction avails generalizing st with
  | nil => rfl
  | cons p rest ih =>
      simp only [List.map_cons, List.foldl_cons]
      rw [ih]
      have hstep : (protocolMessageReceived st (availEvent p av)).available_subunits
          = assocSet st.available_subunits p.1
              (decide (p.2 = YncaProtocolStatus.OK)) := by
        rw [available_subunits_step]
        simp [availEvent]
      rw [hstep]
      rfl

/-! ## C1 and C2 -/

/-- C1: a discovery run that receives `AVAIL` replies for a set of
subunit ids (distinct ids) followed by a `SYS VERSION` reply completes
without error; the recorded available-set maps each probed id to `true`
exactly when its `AVAIL` status was `OK` and contains no other id; and
an event releases the discovery wait exactly when it is a `SYS VERSION`
event. -/
theorem C1_discovery_avail_recording (avails : List (String × YncaProtocolStatus))
    (av ver : String) (hnd : (avails.map Prod.fst).Nodup) :
    (∃ final, detectAvailableSubunits
        (avails.map (fun p => availEvent p av) ++ [sysVersionEvent ver]) = .ok final
      ∧ (∀ s t, (s, t) ∈ avails →
          assocGet final.available_subunits s =
            some (decide (t = YncaProtocolStatus.OK)))
      ∧ (∀ s, s ∉ avails.map Prod.fst →
          assocGet final.available_subunits s = none))
    ∧ (∀ events : List ProtocolEvent,
        (events.foldl protocolMessageReceived ⟨[], false⟩).initialized_event = true
          ↔ ∃ e ∈ events, e.subunit = "SYS" ∧ e.function = "VERSION") := by
  constructor
  · set evs := avails.map (fun p => availEvent p av) ++ [sysVersionEvent ver]
      with hevs
    set final := evs.foldl protocolMessageReceived ⟨[], false⟩ with hfinal
    have hinit : final.initialized_event = true := by
      rw [hfinal, initialized_event_foldl]
      simp [hevs, sysVersionEvent, releasesWait]
    have havail : final.available_subunits = recordAvails [] avails := by
      rw [hfinal, hevs, List.foldl_append, List.foldl_cons, List.foldl_nil,
        available_subunits_step,
        if_neg (show ¬(sysVersionEvent ver).function = "AVAIL" by
          simp [sysVersionEvent])]
      exact available_subunits_foldl_avails avails av _
    refine ⟨final, ?_, ?_, ?_⟩
    · simp only [detectAvailableSubunits]
      rw [← hfinal, if_pos hinit]
    · intro s t hmem
      rw [havail]
      exact assocGet_recordAvails_mem avails [] s t hnd hmem
    · intro s hs
      rw [havail, assocGet_recordAvails_notMem avails [] s hs]
      rfl
  · intro events
    rw [initialized_event_foldl]
    simp [releasesWait, List.any_eq_true]

/-- Witness for C1 at a concrete run: `MAIN` answers `AVAIL` with `OK`,
`TUN` answers with `UNDEFINED`, then `SYS VERSION` arrives. -/
theorem C1_discovery_avail_recording_witness :
    ∃ final, detectAvailableSubunits
        ([("MAIN", YncaProtocolStatus.OK),
          ("TUN", YncaProtocolStatus.UNDEFINED)].map
            (fun p => availEvent p "Ready") ++ [sysVersionEvent "1.0"]) = .ok final
      ∧ assocGet final.available_subunits "MAIN" = some true
      ∧ assocGet final.available_subunits "TUN" = some false
      ∧ assocGet final.available_subunits "ZONE2" = none := by
  obtain ⟨⟨final, hok, hmem, hnot⟩, -⟩ :=
    C1_discovery_avail_recording
      [("MAIN", YncaProtocolStatus.OK), ("TUN", YncaProtocolStatus.UNDEFINED)]
      "Ready" "1.0" (by decide)
  refine ⟨final, hok, ?_, ?_, ?_⟩
  · simpa using hmem "MAIN" YncaProtocolStatus.OK (by simp)
  · simpa using hmem "TUN" YncaProtocolStatus.UNDEFINED (by simp)
  · exact hnot "ZONE2" (by decide)

/-- C2: if no `SYS VERSION` end marker arrives within the discovery
timeout, discovery raises `YncaInitializationFailedException` (and the
result is that error: nothing is retried); the timeout used equals the
number of commands sent since the start of the scan times `0.120`
seconds. -/
theorem C2_discovery_timeout (events : List (ℚ × ProtocolEvent))
    (h : ∀ te ∈ events, te.2.subunit = "SYS" → te.2.function = "VERSION" →
        discoveryTimeoutSeconds < te.1) :
    detectAvailableSubunitsTimed events =
      .error (.YncaInitializationFailedException
        "Subunit availability check failed")
    ∧ discoveryTimeoutSeconds = (discoveryCommandsSent : ℚ) * (120 / 1000)
    ∧ discoveryCommandsSent = subunitCatalog.length + 1 := by
  refine ⟨?_, rfl, rfl⟩
  have hany : ((events.filter fun te => te.1 ≤ discoveryTimeoutSeconds).map
      Prod.snd).any releasesWait = false := by
    by_contra hc
    rw [Bool.not_eq_false, List.any_eq_true] at hc
    obtain ⟨e, he, hrel⟩ := hc
    obtain ⟨te, hte, rfl⟩ := List.mem_map.mp he
    have hmem := List.mem_filter.mp hte
    have h1 : te.2.subunit = "SYS" ∧ te.2.function = "VERSION" := by
      simpa [releasesWait] using hrel
    have hlt := h te hmem.1 h1.1 h1.2
    have hle : te.1 ≤ discoveryTimeoutSeconds := by simpa using hmem.2
    linarith
  have hinit := initialized_event_foldl
    ((events.filter fun te => te.1 ≤ discoveryTimeoutSeconds).map Prod.snd)
    ⟨[], false⟩
  rw [hany] at hinit
  simp only [Bool.or_false] at hinit
  simp only [detectAvailableSubunitsTimed, detectAvailableSubunits]
  rw [if_neg (by rw [hinit]; decide)]

/-- Witness for C2: the only `SYS VERSION` reply arrives at t = 3 s,
after the 18-command timeout of 2.16 s, so discovery fails. -/
theorem C2_discovery_timeout_witness :
    detectAvailableSubunitsTimed [((3 : ℚ), sysVersionEvent "1.0")] =
      .error (.YncaInitializationFailedException
        "Subunit availability check failed") := by
  refine (C2_discovery_timeout [((3 : ℚ), sysVersionEvent "1.0")] ?_).1
  intro te hte h1 h2
  have hte' : te = ((3 : ℚ), sysVersionEvent "1.0") := by simpa using hte
  subst hte'
  norm_num [discoveryTimeoutSeconds, discoveryCommandsSent, subunitCatalog]

/-! ## C3 -/

theorem mem_initializeAvailableSubunits (available : List (String × Bool))
    (k : String) (z : SubunitInstance)
    (h : (k, z) ∈ initializeAvailableSubunits available) :
    z.id = k ∧ z.initialize_called = true ∧ (k = "SYS" ∨ k ∈ ZONES) := by
  rcases List.mem_cons.mp h with heq | hmem
  · simp only [Prod.mk.injEq] at heq
    obtain ⟨h1, h2⟩ := heq
    subst h1
    subst h2
    exact ⟨rfl, rfl, Or.inl rfl⟩
  · obtain ⟨p, hp, hf⟩ := List.mem_filterMap.mp hmem
    by_cases h2 : p.2 = true
    · by_cases h1 : p.1 ∈ ZONES
      · rw [if_pos h2, if_pos h1] at hf
        simp only [Option.some.injEq, Prod.mk.injEq] at hf
        obtain ⟨hk, hz⟩ := hf
        subst hk
        subst hz
        exact ⟨rfl, rfl, Or.inr h1⟩
      · rw [if_pos h2, if_neg h1] at hf
        cases hf
    · rw [if_neg h2] at hf
      cases hf

/-- Counterexample to C3 as stated: the `TUN` subunit id is recorded as
available, yet after `_initialize_available_subunits` the `subunits`
dict has no entry for `TUN` (only ids in `ZONES` are instantiated). -/
theorem C3_counterexample_available_tun_not_instantiated :
    ("TUN", true) ∈ [("TUN", true)] ∧
    assocGet (initializeAvailableSubunits [("TUN", true)]) "TUN" = none := by
  constructor
  · simp
  · rfl

/-- C3 (amended): after discovery, the system subunit is always
constructed and initialized; every available subunit id *that is a zone
id* gets a constructed, initialized entry in the `subunits` dict under
its own id; ids that are neither `SYS` nor zone ids get no entry (the
code constructs no class for them), and every stored entry has had
`initialize()` called. -/
theorem C3_subunit_construction (available : List (String × Bool)) :
    (∃ sys, assocGet (initializeAvailableSubunits available) "SYS" = some sys
      ∧ sys.id = "SYS" ∧ sys.initialize_called = true)
    ∧ (∀ s, s ∈ ZONES → (s, true) ∈ available →
        ∃ z, assocGet (initializeAvailableSubunits available) s = some z
          ∧ z.id = s ∧ z.initialize_called = true)
    ∧ (∀ s, s ≠ "SYS" → s ∉ ZONES →
        assocGet (initializeAvailableSubunits available) s = none)
    ∧ (∀ k z, (k, z) ∈ initializeAvailableSubunits available →
        z.initialize_called = true) := by
  refine ⟨?_, ?_, ?_, ?_⟩
  · exact ⟨SystemInstance.initializeCall, rfl, rfl, rfl⟩
  · intro s hz hav
    have hkey : s ∈ (initializeAvailableSubunits available).map Prod.fst := by
      simp only [initializeAvailableSubunits, List.map_cons, List.mem_cons]
      right
      rw [List.mem_map]
      refine ⟨((ZoneInstance s).initializeCall.id, (ZoneInstance s).initializeCall),
        ?_, rfl⟩
      rw [List.mem_filterMap]
      refine ⟨(s, true), hav, ?_⟩
      simp [hz]
    rcases hget : assocGet (initializeAvailableSubunits available) s with _ | z
    · exact absurd ((assocGet_eq_none_iff _ _).mp hget) (by simpa using hkey)
    · obtain ⟨hid, hinit, -⟩ :=
        mem_initializeAvailableSubunits available s z (assocGet_mem _ _ _ hget)
      exact ⟨z, rfl, hid, hinit⟩
  · intro s hsys hz
    rw [assocGet_eq_none_iff]
    intro hkey
    obtain ⟨⟨k, z⟩, hmem, hk⟩ := List.mem_map.mp hkey
    cases hk
    obtain ⟨-, -, h⟩ := mem_initializeAvailableSubunits available _ z hmem
    rcases h with h | h
    · exact hsys h
    · exact hz h
  · intro k z hmem
    exact (mem_initializeAvailableSubunits available k z hmem).2.1

/-- Witness for C3 (amended) at a concrete input: `MAIN` available. -/
theorem C3_subunit_construction_witness :
    ∃ z, assocGet (initializeAvailableSubunits [("MAIN", true)]) "MAIN" = some z
      ∧ z.id = "MAIN" ∧ z.initialize_called = true :=
  (C3_subunit_construction [("MAIN", true)]).2.1 "MAIN" (by decide) (by simp)

/-! ## C4: only OK events write cached values -/

theorem mediaPlayback_step_not_ok (st : MediaPlaybackState) (e : ProtocolEvent)
    (h : e.status ≠ YncaProtocolStatus.OK) :
    mediaPlaybackMessageReceived st e = st := by
  unfold mediaPlaybackMessageReceived
  rw [if_neg (fun hc => h hc.2)]

theorem zone_step_not_ok (st : ZoneState) (e : ProtocolEvent)
    (h : e.status ≠ YncaProtocolStatus.OK) :
    zoneMessageReceived st e = st := by
  unfold zoneMessageReceived
  rw [if_neg (fun hc => h hc.2)]

theorem foldl_filter_ok {σ : Type} (f : σ → ProtocolEvent → σ)
    (hf : ∀ st e, e.status ≠ YncaProtocolStatus.OK → f st e = st)
    (events : List ProtocolEvent) (st : σ) :
    events.foldl f st =
      (events.filter
        (fun ev => decide (ev.status = YncaProtocolStatus.OK))).foldl f st := by
  induction events generalizing st with
  | nil => rfl
  | cons e rest ih =>
      by_cases h : e.status = YncaProtocolStatus.OK
      · rw [List.foldl_cons, List.filter_cons_of_pos (by simp [h]),
          List.foldl_cons, ih]
      · rw [List.foldl_cons, hf st e h,
          List.filter_cons_of_neg (by simp [h]), ih]

/-- C4: a dispatched event whose status is not `OK` leaves the
subunit's cached values untouched (media-playback subunits and zones
alike), and therefore any event sequence updates the cache exactly as
its `OK`-status subsequence does. -/
theorem C4_ok_only_writes (mst : MediaPlaybackState) (zst : ZoneState)
    (e : ProtocolEvent) (events : List ProtocolEvent)
    (h : e.status ≠ YncaProtocolStatus.OK) :
    mediaPlaybackMessageReceived mst e = mst
    ∧ zoneMessageReceived zst e = zst
    ∧ events.foldl mediaPlaybackMessageReceived mst =
        (events.filter
          (fun ev => decide (ev.status = YncaProtocolStatus.OK))).foldl
          mediaPlaybackMessageReceived mst
    ∧ events.foldl zoneMessageReceived zst =
        (events.filter
          (fun ev => decide (ev.status = YncaProtocolStatus.OK))).foldl
          zoneMessageReceived zst :=
  ⟨mediaPlayback_step_not_ok mst e h, zone_step_not_ok zst e h,
    foldl_filter_ok _ mediaPlayback_step_not_ok events mst,
    foldl_filter_ok _ zone_step_not_ok events zst⟩

/-- Witness for C4: a `RESTRICTED` `REPEAT` event for `SUBUNIT` leaves
a fresh media-playback subunit (and a fresh `MAIN` zone) unchanged. -/
theorem C4_ok_only_writes_witness :
    mediaPlaybackMessageReceived (MediaPlaybackState.new "SUBUNIT")
        ⟨YncaProtocolStatus.RESTRICTED, "SUBUNIT", "REPEAT", "All"⟩ =
      MediaPlaybackState.new "SUBUNIT"
    ∧ zoneMessageReceived (ZoneState.new "MAIN")
        ⟨YncaProtocolStatus.RESTRICTED, "MAIN", "VOL", "0"⟩ =
      ZoneState.new "MAIN" := by
  constructor
  · exact (C4_ok_only_writes (MediaPlaybackState.new "SUBUNIT")
      (ZoneState.new "MAIN")
      ⟨YncaProtocolStatus.RESTRICTED, "SUBUNIT", "REPEAT", "All"⟩ []
      (by decide)).1
  · exact (C4_ok_only_writes (MediaPlaybackState.new "SUBUNIT")
      (ZoneState.new "MAIN")
      ⟨YncaProtocolStatus.RESTRICTED, "MAIN", "VOL", "0"⟩ []
      (by decide)).2.1

/-! ## C5: PUT on a GET-only descriptor -/

/-- C5: a set through any descriptor without PUT capability raises
`UnsupportedOperationError` and transmits no command; the
`playbackinfo`, `artist`, `album`, `song` and `station` descriptors all
lack PUT capability. -/
theorem C5_get_only_put_raises (d : YncaFunctionDesc)
    (subunit_id value : String) (h : d.supports_put = false) :
    descriptorPut d subunit_id value =
      .error (.UnsupportedOperationError d.function_name)
    ∧ commandsOf (descriptorPut d subunit_id value) = []
    ∧ playbackinfoFunction.supports_put = false
    ∧ artistFunction.supports_put = false
    ∧ albumFunction.supports_put = false
    ∧ songFunction.supports_put = false
    ∧ stationFunction.supports_put = false := by
  refine ⟨?_, ?_, rfl, rfl, rfl, rfl, rfl⟩ <;>
    simp [descriptorPut, h, commandsOf]

/-- Witness for C5: a PUT through the `playbackinfo` descriptor. -/
theorem C5_get_only_put_raises_witness :
    descriptorPut playbackinfoFunction "SUBUNIT" "Play" =
      .error (.UnsupportedOperationError "PLAYBACKINFO")
    ∧ commandsOf (descriptorPut playbackinfoFunction "SUBUNIT" "Play") = [] := by
  obtain ⟨h1, h2, -⟩ :=
    C5_get_only_put_raises playbackinfoFunction "SUBUNIT" "Play" rfl
  exact ⟨h1, h2⟩

/-! ## C6: the media-playback scenario -/

/-- C6: after dispatching the scenario events on `SUBUNIT`, the cached
`repeat` is `SINGLE`, `shuffle` is `ON` and `album` is `"Album"`;
setting `repeat = ALL` sends exactly `PUT SUBUNIT:REPEAT=All` and
calling `playback(PLAY)` sends exactly `PUT SUBUNIT:PLAYBACK=Play`. -/
theorem C6_mediaplayback_scenario :
    mediaPlaybackScenarioState.repeat_ = some Repeat.SINGLE
    ∧ mediaPlaybackScenarioState.shuffle = some Shuffle.ON
    ∧ mediaPlaybackScenarioState.album = some "Album"
    ∧ mediaPlaybackSetRepeat mediaPlaybackScenarioState Repeat.ALL =
        .ok [⟨"SUBUNIT", "REPEAT", some "All"⟩]
    ∧ playbackCall mediaPlaybackScenarioState Playback.PLAY =
        [⟨"SUBUNIT", "PLAYBACK", some "Play"⟩] :=
  ⟨rfl, rfl, rfl, rfl, rfl⟩

/-! ## C7: volume rounding and rendering -/

theorem steppedValue_half_eq (v : ℚ) :
    steppedValue v (1 / 2) = (round (2 * v) : ℚ) / 2 := by
  unfold steppedValue
  have hdiv : v / (1 / 2) = 2 * v := by ring
  rw [hdiv]
  ring

theorem steppedValue_half_den_dvd (v : ℚ) :
    (steppedValue v (1 / 2)).den ∣ 2 := by
  rw [steppedValue_half_eq]
  have h := Rat.den_dvd (round (2 * v)) 2
  rw [Rat.divInt_eq_div] at h
  exact_mod_cast h

theorem steppedValue_half_close (v : ℚ) :
    |steppedValue v (1 / 2) - v| ≤ 1 / 4 := by
  rw [steppedValue_half_eq]
  have h := abs_sub_round (2 * v)
  have heq : (round (2 * v) : ℚ) / 2 - v = -(2 * v - (round (2 * v) : ℚ)) / 2 := by
    ring
  rw [heq, abs_div, abs_neg]
  rw [abs_of_pos (show (0 : ℚ) < 2 by norm_num)]
  linarith

/-- C7: for every in-range volume, the setter sends exactly one `VOL`
PUT whose value is `number_to_string_with_stepsize(value, 1, 0.5)`; the
encoded number is a multiple of `0.5` within `0.25` of the requested
value (the nearest grid point), and it renders without a decimal point
when whole and as `<int>.5` (exactly one decimal digit) otherwise. -/
theorem C7_volume_stepsize_rounding (st : ZoneState) (v : ℚ)
    (h : zone_min_volume ≤ v ∧ v ≤ st.max_volume) :
    (zoneVolumeSet st v).2 = .ok [⟨st.id, "VOL",
        some (number_to_string_with_stepsize v 1 (1 / 2))⟩]
    ∧ (∃ k : ℤ, steppedValue v (1 / 2) = (k : ℚ) / 2)
    ∧ |steppedValue v (1 / 2) - v| ≤ 1 / 4
    ∧ ((steppedValue v (1 / 2)).den = 1 →
        number_to_string_with_stepsize v 1 (1 / 2) =
          toString (steppedValue v (1 / 2)).num)
    ∧ ((steppedValue v (1 / 2)).den ≠ 1 →
        number_to_string_with_stepsize v 1 (1 / 2) =
          (if steppedValue v (1 / 2) < 0 then "-" else "") ++
            toString ((steppedValue v (1 / 2)).num.natAbs / 2) ++ ".5") := by
  refine ⟨?_, ⟨round (2 * v), steppedValue_half_eq v⟩,
    steppedValue_half_close v, ?_, ?_⟩
  · unfold zoneVolumeSet
    rw [if_pos h]
  · intro hden
    unfold number_to_string_with_stepsize renderMinimal
    rw [if_pos hden]
  · intro hden
    have hden2 : (steppedValue v (1 / 2)).den = 2 := by
      rcases (Nat.dvd_prime Nat.prime_two).mp (steppedValue_half_den_dvd v)
        with h1 | h2
      · exact absurd h1 hden
      · exact h2
    have hodd : (steppedValue v (1 / 2)).num.natAbs % 2 = 1 := by
      have hcop : Nat.gcd (steppedValue v (1 / 2)).num.natAbs
          (steppedValue v (1 / 2)).den = 1 := (steppedValue v (1 / 2)).reduced
      rw [hden2] at hcop
      rcases Nat.mod_two_eq_zero_or_one (steppedValue v (1 / 2)).num.natAbs
        with h0 | h1
      · exfalso
        have hdvd : 2 ∣ (steppedValue v (1 / 2)).num.natAbs :=
          Nat.dvd_of_mod_eq_zero h0
        have h2 : (2 : ℕ) ∣ Nat.gcd (steppedValue v (1 / 2)).num.natAbs 2 :=
          Nat.dvd_gcd hdvd dvd_rfl
        rw [hcop] at h2
        norm_num at h2
      · exact h1
    have hfrac : (steppedValue v (1 / 2)).num.natAbs * 10 ^ 1 /
        (steppedValue v (1 / 2)).den % 10 ^ 1 = 5 := by
      rw [hden2]
      omega
    unfold number_to_string_with_stepsize renderMinimal
    rw [if_neg hden, hfrac, hden2, String.append_assoc]
    rfl

/-- Witness for C7: setting volume `0.3` on a fresh `MAIN` zone sends
`PUT MAIN:VOL=0.5` (rounded up to the nearest `0.5` grid point). -/
theorem C7_volume_stepsize_rounding_witness :
    (zoneVolumeSet (ZoneState.new "MAIN") (3 / 10)).2 =
      .ok [⟨"MAIN", "VOL", some "0.5"⟩] := by
  have hs : steppedValue (3 / 10) (1 / 2) = mkRat 1 2 := by
    rw [Rat.mkRat_eq_div]
    norm_num [steppedValue, round_eq]
  have hn : number_to_string_with_stepsize (3 / 10) 1 (1 / 2) = "0.5" := by
    unfold number_to_string_with_stepsize
    rw [hs]
    rfl
  have h := (C7_volume_stepsize_rounding (ZoneState.new "MAIN") (3 / 10)
    ⟨by norm_num [zone_min_volume],
     by show (3 : ℚ) / 10 ≤ 33 / 2; norm_num⟩).1
  rw [h, hn]
  rfl

/-! ## C8: the scene-name fallback handler -/

theorem takeWhile_digits_append (d : List Char) (c : Char) (tail : List Char)
    (hdig : ∀ x ∈ d, x.isDigit = true) (hc : c.isDigit = false) :
    (d ++ c :: tail).takeWhile Char.isDigit = d ∧
    (d ++ c :: tail).dropWhile Char.isDigit = c :: tail := by
  induction d with
  | nil => simp [List.takeWhile_cons, List.dropWhile_cons, hc]
  | cons a as ih =>
      have ha : a.isDigit = true := hdig a (List.mem_cons_self _ _)
      have ih' := ih (fun x hx => hdig x (List.mem_cons_of_mem _ hx))
      constructor
      · simp [List.takeWhile_cons, ha, ih'.1]
      · simp [List.dropWhile_cons, ha, ih'.2]

theorem sceneMatchChars_of_decompose (d rest : List Char) (hne : d ≠ [])
    (hdig : ∀ c ∈ d, c.isDigit = true) :
    sceneMatchChars ("SCENE".data ++ d ++ "NAME".data ++ rest) = some d := by
  have hname : "NAME".data ++ rest = 'N' :: ("AME".data ++ rest) := rfl
  have hdropfive : ("SCENE".data ++ d ++ "NAME".data ++ rest).drop 5 =
      d ++ ("NAME".data ++ rest) := by
    rw [List.append_assoc, List.append_assoc]
    exact List.drop_left "SCENE".data _
  have htd := takeWhile_digits_append d 'N' ("AME".data ++ rest) hdig (by decide)
  have hpre : "SCENE".data.isPrefixOf
      ("SCENE".data ++ d ++ "NAME".data ++ rest) = true := by
    rw [List.isPrefixOf_iff_prefix]
    exact ⟨d ++ "NAME".data ++ rest, by simp [List.append_assoc]⟩
  have hnamepre : "NAME".data.isPrefixOf ('N' :: ("AME".data ++ rest)) = true := by
    rw [List.isPrefixOf_iff_prefix]
    exact ⟨rest, rfl⟩
  unfold sceneMatchChars
  rw [if_pos hpre, hdropfive, hname, htd.1, htd.2, if_pos ⟨hne, hnamepre⟩]

theorem sceneMatchChars_some (cs d : List Char)
    (h : sceneMatchChars cs = some d) :
    d ≠ [] ∧ (∀ c ∈ d, c.isDigit = true) ∧
      ∃ rest, cs = "SCENE".data ++ d ++ "NAME".data ++ rest := by
  unfold sceneMatchChars at h
  split at h
  · split at h
    · rename_i hpre hcond
      cases h
      obtain ⟨t, ht⟩ := List.isPrefixOf_iff_prefix.mp hpre
      obtain ⟨r2, hr2⟩ := List.isPrefixOf_iff_prefix.mp hcond.2
      have hdrop : cs.drop 5 = t := by
        rw [← ht]
        exact List.drop_left "SCENE".data t
      rw [hdrop] at hr2
      refine ⟨hcond.1, fun c hc => List.mem_takeWhile_imp hc, r2, ?_⟩
      have hsplit : t = t.takeWhile Char.isDigit ++ ("NAME".data ++ r2) := by
        conv_lhs => rw [← List.takeWhile_append_dropWhile (p := Char.isDigit)
          (l := t)]
        rw [hr2]
      rw [hdrop, ← ht]
      conv_lhs => rw [hsplit]
      simp [List.append_assoc]
    · cases h
  · cases h

/-- C8: events offered to the zone's fallback handler: any function
name of the shape `SCENE<digits>NAME...` stores the value in the scenes
dict under the digit-string key and is reported handled; a function
name the pattern does not match is declined with the state unchanged
(and a match always has that shape); and the dispatcher hands any `OK`
event whose function has no matching handler to the fallback. -/
theorem C8_zone_scene_fallback (st : ZoneState)
    (status : YncaProtocolStatus) (value : String) :
    (∀ function_ : String, ∀ d rest : List Char, d ≠ [] →
      (∀ c ∈ d, c.isDigit = true) →
      function_.data = "SCENE".data ++ d ++ "NAME".data ++ rest →
      subunitMessageReceivedWithoutHandler st status function_ value =
        (true, { st with scenes := assocSet st.scenes (String.mk d) value }))
    ∧ (∀ function_ : String, sceneMatchChars function_.data = none →
      subunitMessageReceivedWithoutHandler st status function_ value =
        (false, st))
    ∧ (∀ function_ : String, ∀ d, sceneMatchChars function_.data = some d →
      d ≠ [] ∧ (∀ c ∈ d, c.isDigit = true) ∧
        ∃ rest, function_.data = "SCENE".data ++ d ++ "NAME".data ++ rest)
    ∧ (∀ e : ProtocolEvent, e.subunit = st.id →
        e.status = YncaProtocolStatus.OK →
        e.function ∉ zoneKnownFunctions →
        zoneMessageReceived st e =
          (subunitMessageReceivedWithoutHandler st e.status e.function
            e.value).2) := by
  refine ⟨?_, ?_, ?_, ?_⟩
  · intro f d rest hne hdig hdecomp
    unfold subunitMessageReceivedWithoutHandler
    rw [hdecomp, sceneMatchChars_of_decompose d rest hne hdig]
  · intro f hnone
    unfold subunitMessageReceivedWithoutHandler
    rw [hnone]
  · intro f d hsome
    exact sceneMatchChars_some f.data d hsome
  · intro e hsub hok hnotknown
    simp only [zoneKnownFunctions, List.mem_cons, List.not_mem_nil, or_false,
      not_or] at hnotknown
    obtain ⟨h1, h2, h3, h4, h5, h6, h7, h8⟩ := hnotknown
    unfold zoneMessageReceived
    rw [if_pos ⟨hsub, hok⟩, if_neg h1, if_neg h2, if_neg h3, if_neg h4,
      if_neg h5, if_neg h6, if_neg h7, if_neg h8]

/-- Witness for C8: `SCENE3NAME` is stored under key `3`; `UNKNOWN` is
declined with the state unchanged. -/
theorem C8_zone_scene_fallback_witness :
    subunitMessageReceivedWithoutHandler (ZoneState.new "MAIN")
        YncaProtocolStatus.OK "SCENE3NAME" "My Scene" =
      (true, { ZoneState.new "MAIN" with scenes := [("3", "My Scene")] })
    ∧ subunitMessageReceivedWithoutHandler (ZoneState.new "MAIN")
        YncaProtocolStatus.OK "UNKNOWN" "x" = (false, ZoneState.new "MAIN") := by
  constructor
  · have h := (C8_zone_scene_fallback (ZoneState.new "MAIN")
      YncaProtocolStatus.OK "My Scene").1 "SCENE3NAME" ['3'] []
      (by decide) (by decide) (by decide)
    rw [h]
    rfl
  · exact (C8_zone_scene_fallback (ZoneState.new "MAIN")
      YncaProtocolStatus.OK "x").2.1 "UNKNOWN" (by decide)

/-! ## C9: volume range check -/

/-- C9: the volume setter sends a `VOL` PUT exactly when
`min_volume ≤ v ≤ max_volume`; otherwise it raises `ValueError` and
sends nothing; it never changes the zone state; `min_volume` is the
constant `-80.5`; a fresh zone has `max_volume = 16.5`; and the
`MAXVOL` handler overwrites `max_volume`. -/
theorem C9_volume_range_check (st : ZoneState) (v : ℚ) :
    ((zoneVolumeSet st v).2 = .ok [⟨st.id, "VOL",
        some (number_to_string_with_stepsize v 1 (1 / 2))⟩] ↔
      zone_min_volume ≤ v ∧ v ≤ st.max_volume)
    ∧ (¬(zone_min_volume ≤ v ∧ v ≤ st.max_volume) →
        (zoneVolumeSet st v).2 = .error (.ValueError
          "Volume out of range, must be between min_volume and max_volume"))
    ∧ (zoneVolumeSet st v).1 = st
    ∧ zone_min_volume = -(161 / 2)
    ∧ (ZoneState.new st.id).max_volume = 33 / 2
    ∧ (∀ m : ℚ, (zone_handle_maxvol st m).max_volume = m) := by
  refine ⟨⟨?_, ?_⟩, ?_, ?_, rfl, rfl, fun m => rfl⟩
  · intro hok
    by_contra hr
    unfold zoneVolumeSet at hok
    rw [if_neg hr] at hok
    exact Except.noConfusion hok
  · intro hr
    unfold zoneVolumeSet
    rw [if_pos hr]
  · intro hr
    unfold zoneVolumeSet
    rw [if_neg hr]
  · unfold zoneVolumeSet
    split <;> rfl

/-- Witness for C9: on a fresh `MAIN` zone, volume `20` (above the
default max of `16.5`) raises `ValueError`, and volume `0` sends
`PUT MAIN:VOL=0`. -/
theorem C9_volume_range_check_witness :
    (zoneVolumeSet (ZoneState.new "MAIN") 20).2 =
      .error (.ValueError
        "Volume out of range, must be between min_volume and max_volume")
    ∧ (zoneVolumeSet (ZoneState.new "MAIN") 0).2 =
      .ok [⟨"MAIN", "VOL", some "0"⟩] := by
  constructor
  · refine (C9_volume_range_check (ZoneState.new "MAIN") 20).2.1 ?_
    intro hc
    have h2 := hc.2
    rw [show (ZoneState.new "MAIN").max_volume = 33 / 2 from rfl] at h2
    norm_num at h2
  · have h := (C9_volume_range_check (ZoneState.new "MAIN") 0).1.mpr
      ⟨by norm_num [zone_min_volume],
       by rw [show (ZoneState.new "MAIN").max_volume = 33 / 2 from rfl]
          norm_num⟩
    rw [h]
    have hn : number_to_string_with_stepsize 0 1 (1 / 2) = "0" := by
      have hs : steppedValue 0 (1 / 2) = mkRat 0 1 := by
        rw [Rat.mkRat_eq_div]
        norm_num [steppedValue, round_eq]
      unfold number_to_string_with_stepsize
      rw [hs]
      rfl
    rw [hn]
    rfl

/-! ## C10: volume_up / volume_down step sizes -/

/-- C10: `volume_up` sends `Up {step_size} dB` exactly for the step
sizes 1, 2 and 5, and plain `Up` for every other step size (including
the default 0.5 and unsupported values such as 3); `volume_down`
behaves symmetrically with `Down`. -/
theorem C10_volume_up_down_stepsizes (st : ZoneState) (s : ℚ) :
    ((s = 1 ∨ s = 2 ∨ s = 5) →
      zoneVolumeUp st s =
        [⟨st.id, "VOL", some ("Up " ++ toString s.num ++ " dB")⟩]
      ∧ zoneVolumeDown st s =
        [⟨st.id, "VOL", some ("Down " ++ toString s.num ++ " dB")⟩])
    ∧ (¬(s = 1 ∨ s = 2 ∨ s = 5) →
      zoneVolumeUp st s = [⟨st.id, "VOL", some "Up"⟩]
      ∧ zoneVolumeDown st s = [⟨st.id, "VOL", some "Down"⟩]) := by
  constructor
  · intro h
    constructor
    · unfold zoneVolumeUp
      rw [if_pos h]
    · unfold zoneVolumeDown
      rw [if_pos h]
  · intro h
    constructor
    · unfold zoneVolumeUp
      rw [if_neg h]
    · unfold zoneVolumeDown
      rw [if_neg h]

/-- Witness for C10: step 2 sends `Up 2 dB`; the default step 0.5 sends
plain `Up`; the unsupported step 3 sends plain `Down` on the way
down. -/
theorem C10_volume_up_down_stepsizes_witness :
    zoneVolumeUp (ZoneState.new "MAIN") 2 = [⟨"MAIN", "VOL", some "Up 2 dB"⟩]
    ∧ zoneVolumeUp (ZoneState.new "MAIN") (1 / 2) =
        [⟨"MAIN", "VOL", some "Up"⟩]
    ∧ zoneVolumeDown (ZoneState.new "MAIN") 3 =
        [⟨"MAIN", "VOL", some "Down"⟩] := by
  refine ⟨?_, ?_, ?_⟩
  · have h := ((C10_volume_up_down_stepsizes (ZoneState.new "MAIN") 2).1
      (Or.inr (Or.inl rfl))).1
    rw [h, show ((2 : ℚ)).num = 2 from by norm_num]
    rfl
  · exact ((C10_volume_up_down_stepsizes (ZoneState.new "MAIN") (1 / 2)).2
      (by norm_num)).1
  · exact ((C10_volume_up_down_stepsizes (ZoneState.new "MAIN") 3).2
      (by norm_num)).2

end Ynca
